import Mathlib

/-!
Shallow embedding of the `easy_storage` Rust crate (src/lib.rs): a save/load
capability for serializable records, persisting to JSON or TOML text files,
with the format chosen explicitly or inferred from the path's extension.

Modelling choices:
* An OS string (`OsStr`) is a list of units, each either a character decoded
  from valid UTF-8 or an undecodable byte.  The byte `.` (0x2E) is ASCII, so
  in valid UTF-8 it always decodes to the character `'.'`; an undecodable
  byte is never a dot.  `osToStr` embeds `OsStr::to_str` (UTF-8 validation).
* A path (`RPath`) is its list of non-separator segments; `fileName` embeds
  `Path::file_name` (the last segment, `none` for an empty path or a path
  ending in `..`), and `pathExtension` embeds `Path::extension` together
  with `rsplit_file_at_dot` from the Rust standard library: the part of the
  file name after the last dot, except that a file name equal to `..` or
  whose last dot is its leading unit has no extension.
* The filesystem is a map from paths to optional file data; file data is
  either UTF-8 text or undecodable binary content.  `std::fs::read_to_string`
  fails with an I/O error on a missing file and on non-UTF-8 content; both
  are modelled.  `OpenOptions::new().write(true).truncate(true)
  .create(new_create).open(path)` succeeds on an existing file, and on a
  missing file exactly when `new_create` is true; writes themselves always
  succeed in the model.
* The serde / serde_json / toml codecs are external collaborators: they are
  parameters (`Codecs`), with error payloads modelled as message strings.
  `serde_json::Error` is a single type used for both serialization and
  deserialization, wrapped by the single `From<serde_json::Error>` impl
  (`jsonErrToError` below); `toml::ser::Error` and `toml::de::Error` are
  distinct and wrapped by distinct variants.
-/

namespace EasyStorage

/-- A unit of an OS string: a character decoded from valid UTF-8, or a
single byte that is not part of any valid UTF-8 sequence. -/
inductive OsUnit where
  | chr (c : Char)
  | bad (b : Nat)
  deriving DecidableEq

/-- An OS string, as handled by `Path`/`OsStr` in the source. -/
abbrev OsStr := List OsUnit

/-- Embed a Lean string as a (valid UTF-8) OS string. -/
def strToOs (s : String) : OsStr :=
  s.data.map OsUnit.chr

/-- `OsStr::to_str`, on the unit list: succeeds iff every unit is a decoded
character. -/
def osToChars : OsStr → Option (List Char)
  | [] => some []
  | OsUnit.chr c :: rest => (osToChars rest).map (fun l => c :: l)
  | OsUnit.bad _ :: _ => none

/-- `OsStr::to_str`: the string, if the OS string is valid UTF-8. -/
def osToStr (s : OsStr) : Option String :=
  (osToChars s).map List.asString

/-- A filesystem path: its non-separator segments. -/
structure RPath where
  segments : List OsStr
  deriving DecidableEq

/-- The OS string `..`. -/
def dotDotOs : OsStr := [OsUnit.chr '.', OsUnit.chr '.']

/-- `Path::file_name`: the final segment; `none` for an empty path or a
path terminating in `..`. -/
def RPath.fileName (p : RPath) : Option OsStr :=
  match p.segments.getLast? with
  | none => none
  | some f => if f = dotDotOs then none else some f

/-- Whether an OS-string unit is the dot character (the byte 0x2E is ASCII,
so it is a dot exactly when it decodes to `'.'`). -/
def isDotUnit : OsUnit → Bool
  | OsUnit.chr c => c = '.'
  | OsUnit.bad _ => false

/-- Split an OS string at its last dot: `some (before, after)` where
`after` is the part after the last dot, or `none` when there is no dot.
Embeds the `rsplitn(2, |b| *b == b'.')` step of `rsplit_file_at_dot`. -/
def rsplitAtDot : OsStr → Option (OsStr × OsStr)
  | [] => none
  | u :: rest =>
    match rsplitAtDot rest with
    | some (b, a) => some (u :: b, a)
    | none => if isDotUnit u then some ([], rest) else none

/-- `Path::extension`: the part of the file name after its last dot, except
that a file name equal to `..`, with no dot, or whose last dot is its
leading unit (a dotfile such as `.json`) has no extension. -/
def pathExtension (p : RPath) : Option OsStr :=
  match p.fileName with
  | none => none
  | some f =>
    if f = dotDotOs then none
    else
      match rsplitAtDot f with
      | none => none
      | some (b, a) => if b = [] then none else some a

/-- The `Format` enum of the source. -/
inductive Format where
  | Json
  | Toml
  deriving DecidableEq, BEq

/-- The kinds of `std::io::Error` the model produces: a missing file
(failed open with `create(false)`, failed read) and non-UTF-8 file content
(failed `read_to_string`). -/
inductive IoErrKind where
  | notFound
  | invalidData
  deriving DecidableEq, BEq

/-- The `Error` enum of the source, with wrapped library errors modelled as
their message strings.  Note one variant per wrapped error TYPE:
`serde_json::Error` (used by serde_json for both serialization and
deserialization) has the single variant `JsonE`, while `toml::ser::Error`
and `toml::de::Error` have the distinct variants `ParTomlE` and
`DesTomlE`. -/
inductive Error where
  | IoE (e : IoErrKind)
  | JsonE (e : String)
  | ParTomlE (e : String)
  | DesTomlE (e : String)
  | ExtensionDoesNotExist
  deriving DecidableEq, BEq

/-- `impl From<std::io::Error> for Error`. -/
def ioErrToError (e : IoErrKind) : Error := Error.IoE e

/-- `impl From<serde_json::Error> for Error` — the single impl through
which both JSON serialization and JSON deserialization failures pass. -/
def jsonErrToError (m : String) : Error := Error.JsonE m

/-- `impl From<toml::ser::Error> for Error`. -/
def tomlSerToError (m : String) : Error := Error.ParTomlE m

/-- `impl From<toml::de::Error> for Error`. -/
def tomlDeToError (m : String) : Error := Error.DesTomlE m

/-- The `extension().map(|f| f.to_str()).flatten()` expression of
`path_to_format` (line 99 of the source). -/
def extText (p : RPath) : Option String :=
  Option.join ((pathExtension p).map osToStr)

/-- `path_to_format` (lines 98-108 of the source). -/
def path_to_format (p : RPath) : Except Error Format :=
  match extText p with
  | some v =>
    if v = "json" then Except.ok Format.Json
    else if v = "toml" then Except.ok Format.Toml
    else Except.error Error.ExtensionDoesNotExist
  | none => Except.error Error.ExtensionDoesNotExist

/-- The external serde_json / toml codecs for a record type `R` (external
collaborators of the crate): pretty encoding to text and decoding from
text, each fallible with a library error (modelled as its message). -/
structure Codecs (R : Type) where
  jsonEncode : R → Except String String
  jsonDecode : String → Except String R
  tomlEncode : R → Except String String
  tomlDecode : String → Except String R

/-- The codecs round-trip: decoding a successful encoding returns the
original record (the behaviour serde derives provide). -/
def Codecs.RoundTrips {R : Type} (C : Codecs R) : Prop :=
  (∀ r s, C.jsonEncode r = Except.ok s → C.jsonDecode s = Except.ok r) ∧
  (∀ r s, C.tomlEncode r = Except.ok s → C.tomlDecode s = Except.ok r)

/-- Content of a file on disk: UTF-8 text, or binary content on which
`read_to_string` fails. -/
inductive FileData where
  | text (s : String)
  | binary
  deriving DecidableEq

/-- The filesystem state: each path maps to the data of the file there, or
`none` when no file exists at that path. -/
def FsMap : Type := RPath → Option FileData

/-- The empty filesystem. -/
def fsEmpty : FsMap := fun _ => none

/-- The filesystem after the file at `p` is (re)written with data `d`. -/
def updateFs (fs : FsMap) (p : RPath) (d : FileData) : FsMap :=
  fun q => if q = p then some d else fs q

/-- The encode step of `save` (lines 121-124): select the codec by format
and translate its failure through the corresponding `From` impl. -/
def encodeFor {R : Type} (C : Codecs R) (fmt : Format) (r : R) :
    Except Error String :=
  match fmt with
  | Format.Json =>
    match C.jsonEncode r with
    | Except.ok s => Except.ok s
    | Except.error m => Except.error (jsonErrToError m)
  | Format.Toml =>
    match C.tomlEncode r with
    | Except.ok s => Except.ok s
    | Except.error m => Except.error (tomlSerToError m)

/-- The decode step of `load` (lines 163-166): select the codec by format
and translate its failure through the corresponding `From` impl. -/
def decodeFor {R : Type} (C : Codecs R) (fmt : Format) (s : String) :
    Except Error R :=
  match fmt with
  | Format.Json =>
    match C.jsonDecode s with
    | Except.ok r => Except.ok r
    | Except.error m => Except.error (jsonErrToError m)
  | Format.Toml =>
    match C.tomlDecode s with
    | Except.ok r => Except.ok r
    | Except.error m => Except.error (tomlDeToError m)

/-- `Storeable::save` (lines 120-135): encode first; on success open the
file for writing with truncation, creating it iff `newCreate`; then write
the encoded text.  Returns the result paired with the new filesystem
state. -/
def save {R : Type} (C : Codecs R) (r : R) (p : RPath) (newCreate : Bool)
    (fmt : Format) (fs : FsMap) : Except Error Unit × FsMap :=
  match encodeFor C fmt r with
  | Except.error e => (Except.error e, fs)
  | Except.ok s =>
    match fs p with
    | some _ => (Except.ok (), updateFs fs p (FileData.text s))
    | none =>
      if newCreate then (Except.ok (), updateFs fs p (FileData.text s))
      else (Except.error (ioErrToError IoErrKind.notFound), fs)

/-- `Storeable::load` (lines 160-167): read the whole file to a string
(I/O error on a missing file or non-UTF-8 content), then decode under the
given format.  Reading never changes the filesystem. -/
def load {R : Type} (C : Codecs R) (p : RPath) (fmt : Format)
    (fs : FsMap) : Except Error R :=
  match fs p with
  | none => Except.error (ioErrToError IoErrKind.notFound)
  | some FileData.binary => Except.error (ioErrToError IoErrKind.invalidData)
  | some (FileData.text content) => decodeFor C fmt content

/-- `Storeable::save_by_extension` (lines 147-150): infer the format from
the path, then delegate to `save`; on inference failure return that
failure with the filesystem untouched. -/
def save_by_extension {R : Type} (C : Codecs R) (r : R) (p : RPath)
    (newCreate : Bool) (fs : FsMap) : Except Error Unit × FsMap :=
  match path_to_format p with
  | Except.error e => (Except.error e, fs)
  | Except.ok fmt => save C r p newCreate fmt fs

/-- `Storeable::load_by_extension` (lines 179-182): infer the format from
the path, then delegate to `load`; on inference failure return that
failure without consulting the filesystem. -/
def load_by_extension {R : Type} (C : Codecs R) (p : RPath)
    (fs : FsMap) : Except Error R :=
  match path_to_format p with
  | Except.error e => Except.error e
  | Except.ok fmt => load C p fmt fs

/-! ### Concrete instances used by witnesses and counterexamples -/

/-- The path `user.json`. -/
def pUserJson : RPath := ⟨[strToOs "user.json"]⟩

/-- The path `user.toml`. -/
def pUserToml : RPath := ⟨[strToOs "user.toml"]⟩

/-- The path `config.yaml` (unsupported extension). -/
def pConfigYaml : RPath := ⟨[strToOs "config.yaml"]⟩

/-- A path whose file name is the dotfile `.json`. -/
def pDotJson : RPath := ⟨[strToOs ".json"]⟩

/-- A path `a.<0xFF>` whose extension is a single byte that is not valid
UTF-8. -/
def pBadExt : RPath := ⟨[strToOs "a." ++ [OsUnit.bad 255]]⟩

/-- A codec suite over `Unit` whose every operation fails, standing for a
record the external libraries refuse to encode or decode. -/
def cexCodec : Codecs Unit :=
  ⟨fun _ => Except.error "boom", fun _ => Except.error "boom",
   fun _ => Except.error "boom", fun _ => Except.error "boom"⟩

/-- The identity codec suite over `String`: encoding is the identity and
so is decoding, hence it round-trips. -/
def idCodec : Codecs String :=
  ⟨fun r => Except.ok r, fun s => Except.ok s,
   fun r => Except.ok r, fun s => Except.ok s⟩

/-- The identity codecs round-trip. -/
lemma idCodec_roundTrips : idCodec.RoundTrips :=
  ⟨fun r s h => by cases h; rfl, fun r s h => by cases h; rfl⟩

/-! ### Helper lemmas -/

/-- Reading back the file just written. -/
lemma updateFs_self (fs : FsMap) (p : RPath) (d : FileData) :
    updateFs fs p d p = some d := by
  simp [updateFs]

/-- A successful format-selected encoding under JSON comes from a
successful `serde_json::to_string_pretty`. -/
lemma encodeFor_json_inv {R : Type} {C : Codecs R} {r : R} {s : String}
    (h : encodeFor C Format.Json r = Except.ok s) :
    C.jsonEncode r = Except.ok s := by
  cases he : C.jsonEncode r with
  | ok t =>
    simp [encodeFor, he] at h
    subst h
    rfl
  | error m =>
    simp [encodeFor, he, jsonErrToError] at h

/-- A successful format-selected encoding under TOML comes from a
successful `toml::to_string_pretty`. -/
lemma encodeFor_toml_inv {R : Type} {C : Codecs R} {r : R} {s : String}
    (h : encodeFor C Format.Toml r = Except.ok s) :
    C.tomlEncode r = Except.ok s := by
  cases he : C.tomlEncode r with
  | ok t =>
    simp [encodeFor, he] at h
    subst h
    rfl
  | error m =>
    simp [encodeFor, he, tomlSerToError] at h

/-- Shape of a successful save: the encode step succeeded with some text
`s`, and the new filesystem is the old one with the file at `p` replaced
by exactly `s`. -/
lemma save_ok_shape {R : Type} (C : Codecs R) (r : R) (p : RPath)
    (nc : Bool) (fmt : Format) (fs : FsMap)
    (h : (save C r p nc fmt fs).1 = Except.ok ()) :
    ∃ s, encodeFor C fmt r = Except.ok s ∧
      (save C r p nc fmt fs).2 = updateFs fs p (FileData.text s) := by
  unfold save at h ⊢
  cases he : encodeFor C fmt r with
  | error e =>
    rw [he] at h
    simp at h
  | ok s =>
    rw [he] at h
    refine ⟨s, rfl, ?_⟩
    cases hp : fs p with
    | some d => rfl
    | none =>
      rw [hp] at h
      cases nc with
      | true => rfl
      | false => simp at h

/-- Decoded text of a valid UTF-8 OS string built from a Lean string. -/
lemma osToChars_strToOs (l : List Char) :
    osToChars (l.map OsUnit.chr) = some l := by
  induction l with
  | nil => rfl
  | cons c cs ih => simp [osToChars, ih]

/-- `to_str` succeeds on an OS string built from a Lean string. -/
lemma osToStr_strToOs (s : String) : osToStr (strToOs s) = some s := by
  unfold osToStr strToOs
  rw [osToChars_strToOs]
  cases s
  rfl

/-- A file name returned by `Path::file_name` is never `..`. -/
lemma fileName_ne_dotDot {p : RPath} {f : OsStr}
    (hf : p.fileName = some f) : f ≠ dotDotOs := by
  intro hcon
  unfold RPath.fileName at hf
  cases hg : p.segments.getLast? with
  | none => rw [hg] at hf; exact Option.noConfusion hf
  | some g =>
    rw [hg] at hf
    by_cases hgd : g = dotDotOs
    · simp [hgd] at hf
    · simp [hgd] at hf
      rw [hf] at hgd
      exact hgd hcon

/-! ### Claim theorems -/

/-- C2: `path_to_format` returns `Ok Json` exactly when the path's
extension decodes to the string `"json"`, `Ok Toml` exactly when it
decodes to `"toml"`, and fails with `ExtensionDoesNotExist` in every other
case (absent extension, empty string, different case, aliases).  Only the
final segment is consulted (`extText` depends only on `RPath.fileName`)
and the function performs no filesystem access (its type takes no `FsMap`
argument). -/
theorem path_to_format_spec (p : RPath) :
    (path_to_format p = Except.ok Format.Json ↔ extText p = some "json") ∧
    (path_to_format p = Except.ok Format.Toml ↔ extText p = some "toml") ∧
    (extText p ≠ some "json" → extText p ≠ some "toml" →
      path_to_format p = Except.error Error.ExtensionDoesNotExist) := by
  unfold path_to_format
  cases h : extText p with
  | none => simp
  | some v =>
    by_cases hj : v = "json"
    · subst hj
      simp
    · by_cases ht : v = "toml"
      · subst ht
        simp
      · simp [hj, ht]

/-- C2 witness: at the concrete path `user.json` the extension decodes to
`"json"` and the format resolves to JSON; at `config.yaml` it is neither
`"json"` nor `"toml"` and inference fails. -/
theorem path_to_format_spec_witness :
    path_to_format pUserJson = Except.ok Format.Json ∧
    path_to_format pConfigYaml = Except.error Error.ExtensionDoesNotExist :=
  ⟨(path_to_format_spec pUserJson).1.mpr rfl,
   (path_to_format_spec pConfigYaml).2.2 (by decide) (by decide)⟩

/-- C10: when the path has an extension but it is not valid UTF-8 (the
OS-string to string conversion fails), `path_to_format` fails with
`ExtensionDoesNotExist`, the same error as an absent or unrecognized
extension. -/
theorem invalid_utf8_extension (p : RPath) (a : OsStr)
    (hx : pathExtension p = some a) (hu : osToStr a = none) :
    path_to_format p = Except.error Error.ExtensionDoesNotExist := by
  have h : extText p = none := by
    simp [extText, hx, hu]
  simp [path_to_format, h]

/-- C10 witness: the path `a.<0xFF>` has the one-byte extension `0xFF`,
which fails UTF-8 decoding, and format inference fails with
`ExtensionDoesNotExist`. -/
theorem invalid_utf8_extension_witness :
    pathExtension pBadExt = some [OsUnit.bad 255] ∧
    osToStr [OsUnit.bad 255] = none ∧
    path_to_format pBadExt = Except.error Error.ExtensionDoesNotExist :=
  ⟨rfl, rfl, invalid_utf8_extension pBadExt [OsUnit.bad 255] rfl rfl⟩

/-- C9 counterexample: the claim says a final segment such as `.json`
(a dot followed by `json` as the final substring) makes `path_to_format`
return `Ok Json`; in the code, `Path::extension` treats a file name whose
only dot is its leading character as having no extension, so inference
fails with `ExtensionDoesNotExist` instead. -/
theorem dot_json_no_extension :
    path_to_format pDotJson = Except.error Error.ExtensionDoesNotExist := by
  rfl

/-- C9 amended: the extension consulted by `path_to_format` is the
substring after the last `.` of the final path segment, provided that dot
is not the segment's leading unit (and the segment is not `..`): for every
path whose final segment splits at its last dot into a nonempty part
before and exactly `json` after, the result is `Ok Json`. -/
theorem extension_after_last_dot (p : RPath) (f b : OsStr)
    (hf : p.fileName = some f) (hs : rsplitAtDot f = some (b, strToOs "json"))
    (hb : b ≠ []) : path_to_format p = Except.ok Format.Json := by
  have hdd : f ≠ dotDotOs := fileName_ne_dotDot hf
  have hx : pathExtension p = some (strToOs "json") := by
    unfold pathExtension
    rw [hf]
    simp [hdd, hs, hb]
  have ht : extText p = some "json" := by
    simp [extText, hx, osToStr_strToOs]
  simp [path_to_format, ht]

/-- C9 witness: the path `a.json` has final segment `a.json`, which splits
at its last dot into the nonempty `a` and `json`, and format inference
returns `Ok Json`. -/
theorem extension_after_last_dot_witness :
    RPath.fileName ⟨[strToOs "a.json"]⟩ = some (strToOs "a.json") ∧
    rsplitAtDot (strToOs "a.json") = some (strToOs "a", strToOs "json") ∧
    path_to_format ⟨[strToOs "a.json"]⟩ = Except.ok Format.Json :=
  ⟨rfl, rfl,
   extension_after_last_dot ⟨[strToOs "a.json"]⟩ (strToOs "a.json")
     (strToOs "a") rfl rfl (by decide)⟩

/-- C3 counterexample: a JSON serialization failure (the encode step of
`save` under `Format.Json`) and a JSON deserialization failure (the decode
step of `load` under `Format.Json`) produce the very same error value
`JsonE "boom"` — one shared variant wrapping `serde_json::Error`, not two
distinct pattern-matchable kinds; the source enum has five variants, not
six. -/
theorem json_encode_decode_same_kind :
    (save cexCodec () pUserJson true Format.Json fsEmpty).1 =
      Except.error (Error.JsonE "boom") ∧
    load cexCodec pUserJson Format.Json
        (updateFs fsEmpty pUserJson (FileData.text "x")) =
      Except.error (Error.JsonE "boom") :=
  ⟨rfl, rfl⟩

/-- C3 amended: the error type is a closed sum with five mutually
exclusive variants — `IoE`, `JsonE` (shared by JSON encode and JSON decode
failures, both passing through the single `From` impl for
`serde_json::Error`), `ParTomlE` (TOML encode), `DesTomlE` (TOML decode),
and `ExtensionDoesNotExist` — so TOML serialization and deserialization
failures are distinct pattern-matchable kinds, while JSON serialization
and deserialization failures share one variant. -/
theorem error_taxonomy_five_variants :
    (∀ e : Error, (∃ k, e = Error.IoE k) ∨ (∃ m, e = Error.JsonE m) ∨
      (∃ m, e = Error.ParTomlE m) ∨ (∃ m, e = Error.DesTomlE m) ∨
      e = Error.ExtensionDoesNotExist) ∧
    (∀ k m, (Error.IoE k == Error.JsonE m) = false) ∧
    (∀ k m, (Error.IoE k == Error.ParTomlE m) = false) ∧
    (∀ k m, (Error.IoE k == Error.DesTomlE m) = false) ∧
    (∀ k, (Error.IoE k == Error.ExtensionDoesNotExist) = false) ∧
    (∀ m m', (Error.JsonE m == Error.ParTomlE m') = false) ∧
    (∀ m m', (Error.JsonE m == Error.DesTomlE m') = false) ∧
    (∀ m, (Error.JsonE m == Error.ExtensionDoesNotExist) = false) ∧
    (∀ m m', (Error.ParTomlE m == Error.DesTomlE m') = false) ∧
    (∀ m, (Error.ParTomlE m == Error.ExtensionDoesNotExist) = false) ∧
    (∀ m, (Error.DesTomlE m == Error.ExtensionDoesNotExist) = false) ∧
    (∀ m, jsonErrToError m = Error.JsonE m ∧
      tomlSerToError m = Error.ParTomlE m ∧
      tomlDeToError m = Error.DesTomlE m) := by
  refine ⟨fun e => ?_, fun _ _ => rfl, fun _ _ => rfl, fun _ _ => rfl,
    fun _ => rfl, fun _ _ => rfl, fun _ _ => rfl, fun _ => rfl,
    fun _ _ => rfl, fun _ => rfl, fun _ => rfl,
    fun m => ⟨rfl, rfl, rfl⟩⟩
  cases e with
  | IoE k => exact Or.inl ⟨k, rfl⟩
  | JsonE m => exact Or.inr (Or.inl ⟨m, rfl⟩)
  | ParTomlE m => exact Or.inr (Or.inr (Or.inl ⟨m, rfl⟩))
  | DesTomlE m => exact Or.inr (Or.inr (Or.inr (Or.inl ⟨m, rfl⟩)))
  | ExtensionDoesNotExist => exact Or.inr (Or.inr (Or.inr (Or.inr rfl)))

/-- C4: when the encode step of `save` fails, `save` returns the error
variant wrapping that format's serialization error (`JsonE`, the variant
wrapping `serde_json::Error`, for JSON; `ParTomlE` for TOML) and the
filesystem state is completely unchanged: the file at the path is not
opened, created, or truncated. -/
theorem save_encode_failure_atomic {R : Type} (C : Codecs R) (r : R)
    (p : RPath) (nc : Bool) (fs : FsMap) (m : String) :
    (C.jsonEncode r = Except.error m →
      save C r p nc Format.Json fs = (Except.error (Error.JsonE m), fs)) ∧
    (C.tomlEncode r = Except.error m →
      save C r p nc Format.Toml fs = (Except.error (Error.ParTomlE m), fs)) := by
  constructor <;> intro h <;>
    simp [save, encodeFor, h, jsonErrToError, tomlSerToError]

/-- C4 witness: with codecs whose encoders fail with message `boom`, a
JSON save and a TOML save both fail with the corresponding variant and
leave the empty filesystem empty. -/
theorem save_encode_failure_atomic_witness :
    (cexCodec.jsonEncode () = Except.error "boom" ∧
      save cexCodec () pUserJson true Format.Json fsEmpty =
        (Except.error (Error.JsonE "boom"), fsEmpty)) ∧
    (cexCodec.tomlEncode () = Except.error "boom" ∧
      save cexCodec () pUserToml false Format.Toml fsEmpty =
        (Except.error (Error.ParTomlE "boom"), fsEmpty)) :=
  ⟨⟨rfl, (save_encode_failure_atomic cexCodec () pUserJson true fsEmpty
      "boom").1 rfl⟩,
   ⟨rfl, (save_encode_failure_atomic cexCodec () pUserToml false fsEmpty
      "boom").2 rfl⟩⟩

/-- C5: on a path where format inference fails, `save_by_extension`
returns `ExtensionDoesNotExist` with the filesystem unchanged, and
`load_by_extension` returns `ExtensionDoesNotExist`; neither consults the
filesystem or the codecs (`save` and `load` are never entered). -/
theorem by_extension_unknown_short_circuit {R : Type} (C : Codecs R)
    (r : R) (p : RPath) (nc : Bool) (fs : FsMap)
    (h : path_to_format p = Except.error Error.ExtensionDoesNotExist) :
    save_by_extension C r p nc fs =
      (Except.error Error.ExtensionDoesNotExist, fs) ∧
    load_by_extension C p fs = Except.error Error.ExtensionDoesNotExist := by
  constructor <;> simp [save_by_extension, load_by_extension, h]

/-- C5 witness: on `config.yaml` (unsupported extension) both operations
fail with `ExtensionDoesNotExist` and the empty filesystem is unchanged. -/
theorem by_extension_unknown_short_circuit_witness :
    save_by_extension idCodec "hi" pConfigYaml true fsEmpty =
      (Except.error Error.ExtensionDoesNotExist, fsEmpty) ∧
    load_by_extension idCodec pConfigYaml fsEmpty =
      Except.error Error.ExtensionDoesNotExist :=
  by_extension_unknown_short_circuit idCodec "hi" pConfigYaml true fsEmpty rfl

/-- C6: when `save` succeeds, the file at the path contains exactly the
pretty-printed encoding of the record under the requested format and
nothing else — prior content at that path is fully discarded — and every
other path is untouched (`updateFs` replaces the file at `p` and leaves
every other path as it was). -/
theorem save_ok_truncates {R : Type} (C : Codecs R) (r : R) (p : RPath)
    (nc : Bool) (fmt : Format) (fs : FsMap) (fs' : FsMap)
    (h : save C r p nc fmt fs = (Except.ok (), fs')) :
    ∃ s, encodeFor C fmt r = Except.ok s ∧
      fs' = updateFs fs p (FileData.text s) := by
  obtain ⟨s, hs, h2⟩ :=
    save_ok_shape C r p nc fmt fs (by rw [h])
  refine ⟨s, hs, ?_⟩
  rw [← h2, h]

/-- C6 witness: overwriting a file that already holds the text `old` with
a save of the record `"hi"` via the identity codec leaves the file holding
exactly `hi`. -/
theorem save_ok_truncates_witness :
    ∃ s, encodeFor idCodec Format.Json "hi" = Except.ok s ∧
      updateFs (updateFs fsEmpty pUserJson (FileData.text "old")) pUserJson
          (FileData.text "hi") =
        updateFs (updateFs fsEmpty pUserJson (FileData.text "old")) pUserJson
          (FileData.text s) :=
  save_ok_truncates idCodec "hi" pUserJson false Format.Json
    (updateFs fsEmpty pUserJson (FileData.text "old"))
    (updateFs (updateFs fsEmpty pUserJson (FileData.text "old")) pUserJson
      (FileData.text "hi")) rfl

/-- C7 counterexample: the claim quantifies over every record, but when
the encode step fails the error is the encode variant, not `Io`: with an
always-failing JSON encoder, `save` with `create_if_missing = false` on a
nonexistent path returns `JsonE "boom"`, which is not the `Io` variant. -/
theorem create_gating_encode_error_first :
    fsEmpty pUserJson = none ∧
    (save cexCodec () pUserJson false Format.Json fsEmpty).1 =
      Except.error (Error.JsonE "boom") ∧
    (Error.JsonE "boom" == Error.IoE IoErrKind.notFound) = false ∧
    (Error.JsonE "boom" == Error.IoE IoErrKind.invalidData) = false :=
  ⟨rfl, rfl, rfl, rfl⟩

/-- C7 amended: for every record whose encoding succeeds, `save` with
`create_if_missing = false` on a path with no file fails with the `Io`
variant (file-not-found) and leaves the filesystem unchanged, while `save`
with `create_if_missing = true` on the same path succeeds and creates the
file with exactly the encoded text. -/
theorem create_gating {R : Type} (C : Codecs R) (r : R) (p : RPath)
    (fmt : Format) (fs : FsMap) (s : String)
    (henc : encodeFor C fmt r = Except.ok s) (hmiss : fs p = none) :
    save C r p false fmt fs =
      (Except.error (Error.IoE IoErrKind.notFound), fs) ∧
    save C r p true fmt fs =
      (Except.ok (), updateFs fs p (FileData.text s)) := by
  constructor <;> simp [save, henc, hmiss, ioErrToError]

/-- C7 witness: saving the record `"hi"` through the identity codec to the
nonexistent `user.toml` fails with `Io` when creation is off, and creates
the file holding `hi` when creation is on. -/
theorem create_gating_witness :
    save idCodec "hi" pUserToml false Format.Toml fsEmpty =
      (Except.error (Error.IoE IoErrKind.notFound), fsEmpty) ∧
    save idCodec "hi" pUserToml true Format.Toml fsEmpty =
      (Except.ok (), updateFs fsEmpty pUserToml (FileData.text "hi")) :=
  create_gating idCodec "hi" pUserToml Format.Toml fsEmpty "hi" rfl rfl

/-- C8: `load` classifies failures by stage: a failed read (missing file,
or content that is not valid UTF-8) yields the `Io` variant; a successful
read whose text the format's codec rejects yields the variant wrapping
that format's deserialization error (`JsonE`, wrapping
`serde_json::Error`, for JSON; `DesTomlE` for TOML).  On any failure the
result is the error branch, so no record value is returned. -/
theorem load_error_classification {R : Type} (C : Codecs R) (p : RPath)
    (fmt : Format) (fs : FsMap) (s m : String) :
    (fs p = none →
      load C p fmt fs = Except.error (Error.IoE IoErrKind.notFound)) ∧
    (fs p = some FileData.binary →
      load C p fmt fs = Except.error (Error.IoE IoErrKind.invalidData)) ∧
    (fs p = some (FileData.text s) → C.jsonDecode s = Except.error m →
      load C p Format.Json fs = Except.error (Error.JsonE m)) ∧
    (fs p = some (FileData.text s) → C.tomlDecode s = Except.error m →
      load C p Format.Toml fs = Except.error (Error.DesTomlE m)) := by
  refine ⟨fun h => ?_, fun h => ?_, fun h hd => ?_, fun h hd => ?_⟩ <;>
    simp [load, decodeFor, h, ioErrToError, jsonErrToError, tomlDeToError]
  · simp [hd]
  · simp [hd]

/-- C8 witness: with the always-failing codecs, loading from a missing
file yields `Io` (not-found), from a binary file yields `Io` (invalid
data), and from a text file whose content the JSON / TOML decoder rejects
yields `JsonE` / `DesTomlE` respectively. -/
theorem load_error_classification_witness :
    load cexCodec pUserJson Format.Json fsEmpty =
      Except.error (Error.IoE IoErrKind.notFound) ∧
    load cexCodec pUserJson Format.Json
        (updateFs fsEmpty pUserJson FileData.binary) =
      Except.error (Error.IoE IoErrKind.invalidData) ∧
    load cexCodec pUserJson Format.Json
        (updateFs fsEmpty pUserJson (FileData.text "x")) =
      Except.error (Error.JsonE "boom") ∧
    load cexCodec pUserToml Format.Toml
        (updateFs fsEmpty pUserToml (FileData.text "x")) =
      Except.error (Error.DesTomlE "boom") :=
  ⟨(load_error_classification cexCodec pUserJson Format.Json fsEmpty
      "x" "boom").1 rfl,
   (load_error_classification cexCodec pUserJson Format.Json
      (updateFs fsEmpty pUserJson FileData.binary) "x" "boom").2.1 rfl,
   (load_error_classification cexCodec pUserJson Format.Json
      (updateFs fsEmpty pUserJson (FileData.text "x")) "x" "boom").2.2.1
      rfl rfl,
   (load_error_classification cexCodec pUserToml Format.Toml
      (updateFs fsEmpty pUserToml (FileData.text "x")) "x" "boom").2.2.2
      rfl rfl⟩

/-- C1: round-trip — for round-tripping codecs, whenever
`save_by_extension` succeeds on a path (which requires its extension to be
exactly `json` or `toml`), `load_by_extension` on the resulting filesystem
returns the saved record. -/
theorem round_trip {R : Type} (C : Codecs R) (hC : C.RoundTrips) (r : R)
    (p : RPath) (nc : Bool) (fs : FsMap)
    (hok : (save_by_extension C r p nc fs).1 = Except.ok ()) :
    load_by_extension C p (save_by_extension C r p nc fs).2 =
      Except.ok r := by
  cases hf : path_to_format p with
  | error e =>
    have hbe : (save_by_extension C r p nc fs).1 = Except.error e := by
      simp [save_by_extension, hf]
    rw [hbe] at hok
    exact Except.noConfusion hok
  | ok fmt =>
    have hbe : save_by_extension C r p nc fs = save C r p nc fmt fs := by
      simp [save_by_extension, hf]
    rw [hbe] at hok ⊢
    obtain ⟨s, hs, hfs⟩ := save_ok_shape C r p nc fmt fs hok
    rw [hfs]
    have hlbe : load_by_extension C p (updateFs fs p (FileData.text s)) =
        load C p fmt (updateFs fs p (FileData.text s)) := by
      simp [load_by_extension, hf]
    rw [hlbe]
    cases fmt with
    | Json =>
      have hd := hC.1 r s (encodeFor_json_inv hs)
      simp [load, updateFs_self, decodeFor, hd]
    | Toml =>
      have hd := hC.2 r s (encodeFor_toml_inv hs)
      simp [load, updateFs_self, decodeFor, hd]

/-- C1 witness: with the identity codecs, saving the record `"hi"` to
`user.json` and to `user.toml` (creation on, empty filesystem) and loading
each back returns `"hi"`. -/
theorem round_trip_witness :
    load_by_extension idCodec pUserJson
        (save_by_extension idCodec "hi" pUserJson true fsEmpty).2 =
      Except.ok "hi" ∧
    load_by_extension idCodec pUserToml
        (save_by_extension idCodec "hi" pUserToml true fsEmpty).2 =
      Except.ok "hi" :=
  ⟨round_trip idCodec idCodec_roundTrips "hi" pUserJson true fsEmpty rfl,
   round_trip idCodec idCodec_roundTrips "hi" pUserToml true fsEmpty rfl⟩

end EasyStorage
